import Mathlib

/-!
Verification of the SEP-1 currency-directory builder
(`abroad/sep1_currencies.py`).

The Python module is shallowly embedded below.  JSON values are the
inductive `JValue`; a currency entry (a Python `dict` produced by
`json.loads` or built by the module) is an insertion-ordered association
list with unique keys, and the dict operations (`get`, `[]=`,
`setdefault`, `update`, iteration order) are modelled with Python's
semantics.  Errors raised by the Python code (`ValueError`,
`RuntimeError`) are modelled with `Except String`, carrying the exact
message strings the source formats.

The two Stellar strkey format checks (`StrKey.is_valid_ed25519_public_key`
and `StrKey.is_valid_contract`) come from the external `stellar_sdk`
dependency, not from this repository; they are kept abstract as a pair of
boolean predicates (`StrKeyChecks`) that every definition is parametrised
by.  The registry source `Asset.objects.all()` (external `polaris`
dependency) is modelled as an explicit list of asset records, and the
`SEP1_CURRENCIES` environment variable as an explicit payload argument
(`RawPayload`): absent/empty, set but not valid JSON, or set and parsed.
-/

namespace AbroadSep1

/-- JSON-like values: `null`, strings, booleans, integers, arrays and
objects.  Object field lists are produced by `json.loads` or by the
module itself, so they carry unique keys. -/
inductive JValue where
  | null
  | s (v : String)
  | b (v : Bool)
  | i (v : Int)
  | arr (elems : List JValue)
  | obj (fields : List (String × JValue))

mutual

/-- Boolean equality on `JValue` (Python `==` on parsed JSON values).
Written by hand because `deriving DecidableEq` does not support this
nested inductive. -/
def JValue.beq : JValue → JValue → Bool
  | .null, .null => true
  | .s a, .s c => a == c
  | .b a, .b c => a == c
  | .i a, .i c => a == c
  | .arr a, .arr c => JValue.beqList a c
  | .obj a, .obj c => JValue.beqFields a c
  | _, _ => false

/-- Elementwise `JValue.beq` on arrays. -/
def JValue.beqList : List JValue → List JValue → Bool
  | [], [] => true
  | x :: xs, y :: ys => JValue.beq x y && JValue.beqList xs ys
  | _, _ => false

/-- Pairwise `JValue.beq` on object field lists. -/
def JValue.beqFields : List (String × JValue) → List (String × JValue) → Bool
  | [], [] => true
  | (k, v) :: xs, (k2, v2) :: ys => k == k2 && JValue.beq v v2 && JValue.beqFields xs ys
  | _, _ => false

end


/-- A currency entry: a Python dict from field names to JSON values,
in insertion order, with unique keys. -/
abbrev Entry := List (String × JValue)

/-- Python `entry.get(f)` restricted to present keys: the value stored
under the first (only) occurrence of `f`. -/
def lookupField : Entry → String → Option JValue
  | [], _ => none
  | (k, v) :: rest, f => if k = f then some v else lookupField rest f

/-- Python `f in entry`. -/
def hasField (e : Entry) (f : String) : Bool := (lookupField e f).isSome

/-- Python `entry.get(f)` (default `None`): absence and an explicit
`null` value are both returned as `None` by `dict.get`. -/
def getPy (e : Entry) (f : String) : JValue := (lookupField e f).getD .null

/-- Python `entry[k] = v`: replaces the value in place when the key is
present (keeping its position), appends otherwise. -/
def setItem : Entry → String → JValue → Entry
  | [], k, v => [(k, v)]
  | (k2, v2) :: rest, k, v =>
    if k2 = k then (k2, v) :: rest else (k2, v2) :: setItem rest k v

/-- Python `entry.setdefault(k, v)`: no-op when the key is present,
appends `(k, v)` otherwise. -/
def setdefault (e : Entry) (k : String) (v : JValue) : Entry :=
  if hasField e k then e else e ++ [(k, v)]

/-- Python `base.update(upd)`: sets every field of `upd`, in `upd`'s
iteration order, on top of `base`. -/
def updateWith (base upd : Entry) : Entry :=
  upd.foldl (fun acc kv => setItem acc kv.1 kv.2) base

/-- Python `list(entry.keys())`. -/
def fieldNames (e : Entry) : List String := e.map Prod.fst

/-- Python truthiness of a JSON value (`bool(v)`): `None`, `False`, `0`,
empty strings and empty containers are falsy. -/
def truthy : JValue → Bool
  | .null => false
  | .s v => !(v == "")
  | .b v => v
  | .i v => !(v == 0)
  | .arr elems => !elems.isEmpty
  | .obj fields => !fields.isEmpty

mutual

/-- Python `repr` of a JSON value, used only through `pyStr` in f-string
interpolation of a non-string.  Scalars are exact (`None`, `True`,
`False`, decimal integers).  For containers the source would render
Python's `repr`; the quote-choice and escaping rules of `repr` for
strings inside containers are simplified to single quotes here.  No call
site of the module interpolates a container: the interpolated `code`
value is a string (or absent) in every caller. -/
def pyRepr : JValue → String
  | .null => "None"
  | .s v => "'" ++ v ++ "'"
  | .b true => "True"
  | .b false => "False"
  | .i n => toString n
  | .arr elems => "[" ++ pyReprElems elems ++ "]"
  | .obj fields => "\x7b" ++ pyReprFields fields ++ "\x7d"

/-- Comma-joined `pyRepr` of array elements. -/
def pyReprElems : List JValue → String
  | [] => ""
  | [x] => pyRepr x
  | x :: rest => pyRepr x ++ ", " ++ pyReprElems rest

/-- Comma-joined `pyRepr` of object fields. -/
def pyReprFields : List (String × JValue) → String
  | [] => ""
  | [(k, v)] => "'" ++ k ++ "': " ++ pyRepr v
  | (k, v) :: rest => "'" ++ k ++ "': " ++ pyRepr v ++ ", " ++ pyReprFields rest

end

/-- Python `str` of a JSON value (f-string interpolation): a string
interpolates as itself, everything else as its `repr`-like rendering. -/
def pyStr : JValue → String
  | .s v => v
  | v => pyRepr v

/-- Strict lexicographic order on triples over a linear order: Python's
`<` on a 3-tuple. -/
def lexLt3 {α : Type} [LinearOrder α] (a c : α × α × α) : Bool :=
  decide (a.1 < c.1) ||
    (decide (a.1 = c.1) &&
      (decide (a.2.1 < c.2.1) ||
        (decide (a.2.1 = c.2.1) && decide (a.2.2 < c.2.2))))

/-- Reflexive closure of `lexLt3`: Python's `<=` on a 3-tuple. -/
def lexLe3 {α : Type} [LinearOrder α] (a c : α × α × α) : Bool :=
  lexLt3 a c || decide (a = c)


/-- One step of a stable insertion sort: walk past the strictly smaller
elements and place `x` in front of the first element not below it.
Equal elements keep their original relative order, as Python's stable
`list.sort` guarantees. -/
def insertSorted {α : Type} (lt : α → α → Bool) (x : α) : List α → List α
  | [] => [x]
  | y :: ys => if lt y x then y :: insertSorted lt x ys else x :: y :: ys

/-- Stable insertion sort.  Python's `list.sort(key=...)` is a stable
ascending sort; a stable sort by a total preorder on keys is unique, so
this function agrees with the source's sort extensionally. -/
def insertionSort {α : Type} (lt : α → α → Bool) : List α → List α
  | [] => []
  | x :: xs => insertSorted lt x (insertionSort lt xs)


/-- Boolean code-point comparison of strings: Python compares strings
lexicographically by code point, which is the lexicographic order on
their character lists. -/
def strLtB (a c : String) : Bool := decide (a.data < c.data)

/-- Python `sorted` on a list of strings: ascending and stable. -/
def sortStrings (l : List String) : List String := insertionSort strLtB l

/-- Python `set(...)` membership collapse for a list of strings: keeps
one occurrence of each string (which occurrence is irrelevant to the
module, which always sorts the result). -/
def dedupStr : List String → List String
  | [] => []
  | x :: xs =>
    let r := dedupStr xs
    if r.contains x then r else x :: r

/-- The `_ALLOWED_STATUSES` set.  The source holds these in Python sets;
the module only tests membership and renders the sorted set in an error
message, so a list with the literal's element order is an exact model. -/
def _ALLOWED_STATUSES : List String := ["live", "dead", "test", "private"]

/-- The `_ALLOWED_ANCHOR_ASSET_TYPES` set. -/
def _ALLOWED_ANCHOR_ASSET_TYPES : List String :=
  ["fiat", "crypto", "nft", "stock", "bond", "commodity", "realestate", "other"]

/-- The `_KNOWN_CURRENCY_FIELDS` set, in the literal's order. -/
def _KNOWN_CURRENCY_FIELDS : List String :=
  ["code", "issuer", "contract", "code_template", "status", "display_decimals",
   "name", "desc", "conditions", "image", "fixed_number", "max_number",
   "is_unlimited", "is_asset_anchored", "anchor_asset_type", "anchor_asset",
   "attestation_of_reserve", "redemption_instructions", "collateral_addresses",
   "collateral_address_messages", "collateral_address_signatures", "regulated",
   "approval_server", "approval_criteria"]

/-- The `_ANCHOR_TESTS_REQUIRED_FIELDS` set.  The source iterates this
Python set, whose iteration order is unspecified; the iteration only
picks the first missing field for an error message, and after defaulting
at most one field (`code`) can be missing, so the order is immaterial. -/
def _ANCHOR_TESTS_REQUIRED_FIELDS : List String :=
  ["is_asset_anchored", "anchor_asset_type", "code", "desc", "status"]

/-- The `_require_string` validator: the value must be a non-empty
string, within `max_length` characters when a bound is given.  Python's
`isinstance(value, str)` is the `.s` constructor test, and `len` of a
string counts its characters. -/
def _require_string (value : JValue) (field : String) (max_length : Option Nat) :
    Except String String :=
  match value with
  | .s str =>
    if str = "" then .error ("'" ++ field ++ "' must be a non-empty string")
    else
      match max_length with
      | some m =>
        if str.length > m then
          .error ("'" ++ field ++ "' must be <= " ++ toString m ++ " characters")
        else .ok str
      | none => .ok str
  | _ => .error ("'" ++ field ++ "' must be a non-empty string")

/-- The `_optional_string` validator: absent or `null` is accepted,
anything else must pass `_require_string`. -/
def _optional_string (data : Entry) (field : String) (max_length : Option Nat) :
    Except String Unit :=
  match lookupField data field with
  | none => .ok ()
  | some .null => .ok ()
  | some v =>
    match _require_string v field max_length with
    | .error m => .error m
    | .ok _ => .ok ()

/-- The `_optional_bool` validator: absent or `null` is accepted,
anything else must be a boolean. -/
def _optional_bool (data : Entry) (field : String) : Except String Unit :=
  match lookupField data field with
  | none => .ok ()
  | some .null => .ok ()
  | some (.b _) => .ok ()
  | some _ => .error ("'" ++ field ++ "' must be a boolean")

/-- Python `isinstance(value, int)` on a JSON value, with the value it
denotes: `bool` is a subtype of `int` in Python, so `True`/`False` pass
the check as `1`/`0`. -/
def pyAsInt : JValue → Option Int
  | .i n => some n
  | .b bv => some (if bv then 1 else 0)
  | _ => none

/-- Sequencing of two checks: Python raises at the first failure. -/
def pyChain (a c : Except String Unit) : Except String Unit :=
  match a with
  | .error m => .error m
  | .ok _ => c

/-- The `min_value` clause of `_optional_int`. -/
def checkMinValue (n : Int) (field : String) : Option Int → Except String Unit
  | none => .ok ()
  | some lo =>
    if n < lo then .error ("'" ++ field ++ "' must be >= " ++ toString lo) else .ok ()

/-- The `max_value` clause of `_optional_int`. -/
def checkMaxValue (n : Int) (field : String) : Option Int → Except String Unit
  | none => .ok ()
  | some hi =>
    if n > hi then .error ("'" ++ field ++ "' must be <= " ++ toString hi) else .ok ()

/-- The `_optional_int` validator: absent or `null` is accepted,
anything else must be an integer within the optional bounds. -/
def _optional_int (data : Entry) (field : String) (min_value max_value : Option Int) :
    Except String Unit :=
  match lookupField data field with
  | none => .ok ()
  | some .null => .ok ()
  | some v =>
    match pyAsInt v with
    | none => .error ("'" ++ field ++ "' must be an integer")
    | some n => pyChain (checkMinValue n field min_value) (checkMaxValue n field max_value)

/-- Test for a non-empty JSON string, as `_optional_list_of_strings`
applies it to each element. -/
def isNonEmptyStr : JValue → Bool
  | .s v => !(v == "")
  | _ => false

/-- The `_optional_list_of_strings` validator: absent or `null` is
accepted, anything else must be a list whose every element is a
non-empty string. -/
def _optional_list_of_strings (data : Entry) (field : String) : Except String Unit :=
  match lookupField data field with
  | none => .ok ()
  | some .null => .ok ()
  | some (.arr elems) =>
    if elems.all isNonEmptyStr then .ok ()
    else .error ("'" ++ field ++ "' must be a list of non-empty strings")
  | some _ => .error ("'" ++ field ++ "' must be a list of non-empty strings")

/-- The two Stellar strkey format checks the module imports from the
external `stellar_sdk` dependency (`StrKey.is_valid_ed25519_public_key`
and `StrKey.is_valid_contract`).  They are pure string predicates; their
implementation is outside this repository, so they stay abstract. -/
structure StrKeyChecks where
  isValidEd25519PublicKey : String → Bool
  isValidContract : String → Bool

/-- The field names of `e` outside the known-field set, as the strict
branch of `validate_currency_entry` computes them:
`sorted(set(entry.keys()) - _KNOWN_CURRENCY_FIELDS)`. -/
def unknownFields (e : Entry) : List String :=
  sortStrings (dedupStr ((fieldNames e).filter (fun k => !(_KNOWN_CURRENCY_FIELDS.contains k))))

/-- The strict-mode unknown-field rejection at the top of
`validate_currency_entry`. -/
def strictCheck (e : Entry) (strict : Bool) : Except String Unit :=
  if strict then
    let unknown := unknownFields e
    if unknown.isEmpty then .ok ()
    else .error ("unknown field(s): " ++ String.intercalate ", " unknown)
  else .ok ()

/-- The `issuer` clause of `validate_currency_entry`: skipped when
`entry.get("issuer") is None` (absent or `null`), otherwise the value
must be a non-empty string passing the public-key format check. -/
def checkIssuerField (ck : StrKeyChecks) (issuer : JValue) : Except String Unit :=
  match issuer with
  | .null => .ok ()
  | v =>
    match _require_string v "issuer" none with
    | .error m => .error m
    | .ok str =>
      if ck.isValidEd25519PublicKey str then .ok ()
      else .error ("'issuer' must be a valid Stellar public key (G...)")

/-- The `contract` clause of `validate_currency_entry`. -/
def checkContractField (ck : StrKeyChecks) (contract : JValue) : Except String Unit :=
  match contract with
  | .null => .ok ()
  | v =>
    match _require_string v "contract" none with
    | .error m => .error m
    | .ok str =>
      if ck.isValidContract str then .ok ()
      else .error ("'contract' must be a valid Stellar contract ID (C...)")

/-- The issuer/contract cross-field rules of `validate_currency_entry`
(source lines 128-143).  Python tests `if issuer and contract` and
`if not issuer and not contract` by truthiness: an absent key, a `null`,
an empty string, `False` or `0` all count as not supplied there. -/
def checkIssuerContract (ck : StrKeyChecks) (e : Entry) : Except String Unit :=
  let issuer := getPy e "issuer"
  let contract := getPy e "contract"
  if truthy issuer && truthy contract then
    .error ("only one of 'issuer' or 'contract' can be set")
  else if !truthy issuer && !truthy contract then
    .error ("one of 'issuer' (Stellar Asset) or 'contract' (SEP-41 token) must be set")
  else
    match checkIssuerField ck issuer with
    | .error m => .error m
    | .ok _ => checkContractField ck contract

/-- Run a list of checks in order, stopping at the first failure, as the
straight-line sequence of validator calls in the source does. -/
def runChecks : List (Except String Unit) → Except String Unit
  | [] => .ok ()
  | .error m :: _ => .error m
  | .ok _ :: rest => runChecks rest

/-- Membership message of an enum-valued field: Python formats
`sorted(allowed)`, a list of single-quoted strings. -/
def enumMessage (field : String) (allowed : List String) : String :=
  "'" ++ field ++ "' must be one of " ++ pyRepr (.arr ((sortStrings allowed).map JValue.s))

/-- The `status` clause of `validate_currency_entry`: when supplied it
must be a non-empty string drawn from `_ALLOWED_STATUSES`. -/
def checkStatus (e : Entry) : Except String Unit :=
  match getPy e "status" with
  | .null => .ok ()
  | v =>
    match _require_string v "status" none with
    | .error m => .error m
    | .ok str =>
      if _ALLOWED_STATUSES.contains str then .ok ()
      else .error (enumMessage "status" _ALLOWED_STATUSES)

/-- The `anchor_asset_type` clause of `validate_currency_entry`. -/
def checkAnchorAssetType (e : Entry) : Except String Unit :=
  match getPy e "anchor_asset_type" with
  | .null => .ok ()
  | v =>
    match _require_string v "anchor_asset_type" none with
    | .error m => .error m
    | .ok str =>
      if _ALLOWED_ANCHOR_ASSET_TYPES.contains str then .ok ()
      else .error (enumMessage "anchor_asset_type" _ALLOWED_ANCHOR_ASSET_TYPES)

/-- The optional-field checks of `validate_currency_entry` in source
order (lines 145-181).  None of them modifies the entry. -/
def checkOptionalFields (e : Entry) : Except String Unit :=
  runChecks
    [_optional_string e "code_template" (some 12),
     checkStatus e,
     _optional_int e "display_decimals" (some 0) (some 7),
     _optional_string e "name" (some 20),
     _optional_string e "desc" none,
     _optional_string e "conditions" none,
     _optional_string e "image" none,
     _optional_int e "fixed_number" (some 0) none,
     _optional_int e "max_number" (some 0) none,
     _optional_bool e "is_unlimited",
     _optional_bool e "is_asset_anchored",
     checkAnchorAssetType e,
     _optional_string e "anchor_asset" none,
     _optional_string e "attestation_of_reserve" none,
     _optional_string e "redemption_instructions" none,
     _optional_list_of_strings e "collateral_addresses",
     _optional_list_of_strings e "collateral_address_messages",
     _optional_list_of_strings e "collateral_address_signatures",
     _optional_bool e "regulated",
     _optional_string e "approval_server" none,
     _optional_string e "approval_criteria" none]

/-- Body of `validate_currency_entry` once the argument is known to be a
mapping.  `entry = dict(raw_entry)` copies the dict; the only write the
function performs is `entry["code"] = _require_string(...)`, which
stores back the very string `entry.get("code")` held, so the returned
dict equals the copy. -/
def validateObjEntry (ck : StrKeyChecks) (raw_entry : Entry) (strict : Bool) :
    Except String Entry :=
  match strictCheck raw_entry strict with
  | .error m => .error m
  | .ok _ =>
    match _require_string (getPy raw_entry "code") "code" (some 12) with
    | .error m => .error m
    | .ok code =>
      let entry := setItem raw_entry "code" (.s code)
      match checkIssuerContract ck entry with
      | .error m => .error m
      | .ok _ =>
        match checkOptionalFields entry with
        | .error m => .error m
        | .ok _ => .ok entry

/-- The `validate_currency_entry` function.  A non-mapping argument is
rejected first; `strict` has no default here, and every call site passes
the value the source passes (the source's default is `True`, which the
bare call on source line 276 uses). -/
def validate_currency_entry (ck : StrKeyChecks) (raw_entry : JValue) (strict : Bool) :
    Except String Entry :=
  match raw_entry with
  | .obj fields => validateObjEntry ck fields strict
  | _ => .error "currency entry must be an object"

/-- The local binding `code = entry.get("code") or "TOKEN"` of
`_apply_required_field_defaults`: the entry's own `code` value when
truthy, the fallback string otherwise. -/
def defaultCode (entry : Entry) : JValue :=
  if truthy (getPy entry "code") then getPy entry "code" else .s "TOKEN"

/-- The sequence of `setdefault` calls of `_apply_required_field_defaults`
(source lines 238-245), in source order.  Note that `anchor_asset_type`
is `setdefault`-ed twice, first to `"fiat"` and then to `"other"`, and
that no `setdefault` establishes `code` itself. -/
def defaultsChain (entry : Entry) : Entry :=
  let e1 := setdefault entry "status" (.s "live")
  let e2 := setdefault e1 "desc" (.s (pyStr (defaultCode entry) ++ " token"))
  let e3 := setdefault e2 "is_asset_anchored" (.b true)
  let e4 := setdefault e3 "anchor_asset_type" (.s "fiat")
  let e5 := setdefault e4 "anchor_asset" (defaultCode entry)
  setdefault e5 "anchor_asset_type" (.s "other")

/-- The required-field assertion loop at the end of
`_apply_required_field_defaults`: the first required field still missing
after the defaults, if any. -/
def firstMissingRequired (e : Entry) : Option String :=
  _ANCHOR_TESTS_REQUIRED_FIELDS.find? (fun f => !hasField e f)

/-- The `_apply_required_field_defaults` function: apply the defaults,
then fail on the first required field still missing. -/
def _apply_required_field_defaults (entry : Entry) : Except String Entry :=
  let e := defaultsChain entry
  match firstMissingRequired e with
  | some f =>
    .error ("currency entry missing required field '" ++ f ++ "' after applying defaults")
  | none => .ok e

/-- Variant of `defaultsChain` with the second `anchor_asset_type`
default assignment (source line 245) removed, for comparison with the
function as written. -/
def defaultsChainSingle (entry : Entry) : Entry :=
  let e1 := setdefault entry "status" (.s "live")
  let e2 := setdefault e1 "desc" (.s (pyStr (defaultCode entry) ++ " token"))
  let e3 := setdefault e2 "is_asset_anchored" (.b true)
  let e4 := setdefault e3 "anchor_asset_type" (.s "fiat")
  setdefault e4 "anchor_asset" (defaultCode entry)

/-- Variant of `_apply_required_field_defaults` with the second
`anchor_asset_type` default assignment removed. -/
def _apply_required_field_defaults_single (entry : Entry) : Except String Entry :=
  let e := defaultsChainSingle entry
  match firstMissingRequired e with
  | some f =>
    .error ("currency entry missing required field '" ++ f ++ "' after applying defaults")
  | none => .ok e

/-- The environment variable the loader reads; every caller in the
repository uses this default name. -/
def envVarName : String := "SEP1_CURRENCIES"

/-- The state of the `SEP1_CURRENCIES` configuration at one build:
`absent` models an unset or empty variable (Python `not raw`),
`invalidJson` a set value `json.loads` rejects, and `parsed v` a set
value parsing to the JSON value `v`.  JSON parsing itself happens in the
external `json` library. -/
inductive RawPayload where
  | absent
  | invalidJson
  | parsed (v : JValue)

/-- The per-element loop of `load_additional_currencies_from_env`:
validate each element strictly, prefixing any failure with the element's
index; elements after a failing one are not reached. -/
def loadEntriesFrom (ck : StrKeyChecks) : Nat → List JValue → Except String (List Entry)
  | _, [] => .ok []
  | idx, item :: rest =>
    match validate_currency_entry ck item true with
    | .error msg =>
      .error ("Invalid currency entry at " ++ envVarName ++ "[" ++ toString idx ++ "]: " ++ msg)
    | .ok e =>
      match loadEntriesFrom ck (idx + 1) rest with
      | .error m => .error m
      | .ok es => .ok (e :: es)

/-- The `load_additional_currencies_from_env` function over the modelled
payload states. -/
def load_additional_currencies_from_env (ck : StrKeyChecks) :
    RawPayload → Except String (List Entry)
  | .absent => .ok []
  | .invalidJson => .error (envVarName ++ " must be valid JSON")
  | .parsed (.arr items) => loadEntriesFrom ck 0 items
  | .parsed _ => .error (envVarName ++ " must be a JSON list of objects")

/-- A composite key as `_currency_key` computes it:
`(entry.get("code"), entry.get("issuer"), entry.get("contract"))`.
`dict.get` returns `None` both for an absent key and for a stored
`null`, so the two collapse to `JValue.null` here too. -/
abbrev CompositeKey := JValue × JValue × JValue

/-- The `_currency_key` function. -/
def _currency_key (e : Entry) : CompositeKey :=
  (getPy e "code", getPy e "issuer", getPy e "contract")

/-- Python `==` on composite keys. -/
def ckeyBeq (a c : CompositeKey) : Bool :=
  JValue.beq a.1 c.1 && JValue.beq a.2.1 c.2.1 && JValue.beq a.2.2 c.2.2

/-- The `currencies_by_key` dict of `build_sep1_currencies`: an
insertion-ordered map from composite key to entry. -/
abbrev KeyedMap := List (CompositeKey × Entry)

/-- Python `currencies_by_key.get(key)`. -/
def mapGet : KeyedMap → CompositeKey → Option Entry
  | [], _ => none
  | (k, v) :: rest, key => if ckeyBeq k key then some v else mapGet rest key

/-- Python `currencies_by_key[key] = v`: replace in place when the key
is present (keeping its position and original key object), append
otherwise. -/
def mapSet : KeyedMap → CompositeKey → Entry → KeyedMap
  | [], key, v => [(key, v)]
  | (k, w) :: rest, key, v =>
    if ckeyBeq k key then (k, v) :: rest else (k, w) :: mapSet rest key v

/-- Python `currencies_by_key.values()` in insertion order. -/
def mapValues (m : KeyedMap) : List Entry := m.map Prod.snd

/-- The seen-set loop of `_dedupe_currencies`: keep the first entry for
each composite key.  `dict(currency)` is a plain copy. -/
def dedupeLoop : List Entry → List CompositeKey → List Entry
  | [], _ => []
  | c :: rest, seen =>
    let key := _currency_key c
    if seen.any (fun k => ckeyBeq key k) then dedupeLoop rest seen
    else c :: dedupeLoop rest (key :: seen)

/-- One component of the sort key of `_dedupe_currencies`:
`c.get(f) or ""`.  Absence, `null` and the empty string all yield `""`.
A truthy non-string value would make Python's tuple comparison raise
`TypeError` during the sort; such a value cannot occur in the validated
entries the function receives in this module, and is mapped to `""`. -/
def strOrEmpty : JValue → String
  | .s v => v
  | _ => ""

/-- The sort key of `_dedupe_currencies` for one entry, as a triple of
character lists (Python compares strings code-point-wise). -/
def sortTripleOf (c : Entry) : List Char × List Char × List Char :=
  ((strOrEmpty (getPy c "code")).data,
   (strOrEmpty (getPy c "issuer")).data,
   (strOrEmpty (getPy c "contract")).data)

/-- Strict comparison of two entries by their sort keys. -/
def currencyLt (a c : Entry) : Bool := lexLt3 (sortTripleOf a) (sortTripleOf c)

/-- Non-strict comparison of two entries by their sort keys. -/
def currencyLe (a c : Entry) : Bool := lexLe3 (sortTripleOf a) (sortTripleOf c)

/-- The `_dedupe_currencies` function: drop duplicate composite keys,
then sort by `(code or "", issuer or "", contract or "")`. -/
def _dedupe_currencies (currencies : List Entry) : List Entry :=
  insertionSort currencyLt (dedupeLoop currencies [])

/-- One record of the Polaris asset registry (`Asset.objects.all()`),
with the three attributes `build_sep1_currencies` reads.  The `issuer`
column may hold a string or be null. -/
structure Asset where
  code : String
  issuer : JValue
  significant_decimals : Int

/-- The seed dict built from one registry asset. -/
def seedCurrency (a : Asset) : Entry :=
  [("code", .s a.code), ("issuer", a.issuer), ("display_decimals", .i a.significant_decimals)]

/-- One iteration of the registry loop of `build_sep1_currencies`
(source lines 260-269): default the seed, validate it leniently, and
store it under the key of the defaulted seed. -/
def seedStep (ck : StrKeyChecks) (m : KeyedMap) (a : Asset) : Except String KeyedMap :=
  match _apply_required_field_defaults (seedCurrency a) with
  | .error msg => .error msg
  | .ok currency =>
    match validate_currency_entry ck (.obj currency) false with
    | .error msg => .error msg
    | .ok v => .ok (mapSet m (_currency_key currency) v)

/-- The merge of one override into the keyed map (source lines 272-274):
`merged = dict(currencies_by_key.get(key, {})); merged.update(env_currency)`. -/
def mergedEntryOf (m : KeyedMap) (env_currency : Entry) : Entry :=
  updateWith ((mapGet m (_currency_key env_currency)).getD []) env_currency

/-- One iteration of the override loop of `build_sep1_currencies`
(source lines 271-276): merge onto the same-keyed base if any, re-apply
the defaults, re-validate, and store under the key computed from the
override itself.  The re-validation call on source line 276 passes no
`strict` argument, so it runs with the function's default,
`strict=True`. -/
def overrideStep (ck : StrKeyChecks) (m : KeyedMap) (env_currency : Entry) :
    Except String KeyedMap :=
  let key := _currency_key env_currency
  match _apply_required_field_defaults (mergedEntryOf m env_currency) with
  | .error msg => .error msg
  | .ok merged =>
    match validate_currency_entry ck (.obj merged) true with
    | .error msg => .error msg
    | .ok v => .ok (mapSet m key v)

/-- Modelled from the spec: the override iteration as §4.5 step 3 words
it, with the re-validation of the merged entry in lenient mode
(`strict=False`).  Identical to `overrideStep` except for the mode of
the `validate_currency_entry` call. -/
def overrideStepSpec (ck : StrKeyChecks) (m : KeyedMap) (env_currency : Entry) :
    Except String KeyedMap :=
  let key := _currency_key env_currency
  match _apply_required_field_defaults (mergedEntryOf m env_currency) with
  | .error msg => .error msg
  | .ok merged =>
    match validate_currency_entry ck (.obj merged) false with
    | .error msg => .error msg
    | .ok v => .ok (mapSet m key v)

/-- Fold a fallible step over a list, stopping at the first failure, as
the two `for` loops of `build_sep1_currencies` do (an exception aborts
the whole build). -/
def foldSteps {α : Type} (step : KeyedMap → α → Except String KeyedMap) :
    KeyedMap → List α → Except String KeyedMap
  | m, [] => .ok m
  | m, x :: xs =>
    match step m x with
    | .error msg => .error msg
    | .ok m2 => foldSteps step m2 xs

/-- The `build_sep1_currencies` function, with the registry snapshot and
the override payload as explicit inputs. -/
def build_sep1_currencies (ck : StrKeyChecks) (assets : List Asset) (payload : RawPayload) :
    Except String (List Entry) :=
  match foldSteps (seedStep ck) [] assets with
  | .error msg => .error msg
  | .ok m =>
    match load_additional_currencies_from_env ck payload with
    | .error msg => .error msg
    | .ok envs =>
      match foldSteps (overrideStep ck) m envs with
      | .error msg => .error msg
      | .ok m2 => .ok (_dedupe_currencies (mapValues m2))

/-- A well-formed Stellar public key string, used to instantiate the
abstract strkey checks in concrete witnesses. -/
def gkeySample : String := "GA5ZSEJYB37JRC5AVCIA5MOP4RHTM335X2KGX3IHOJAPP5RE34K4KZVV"

/-- A well-formed Stellar contract id string. -/
def ckeySample : String := "CA7QYNF7SOWQ3GLR2BGMZEHXAVIRZA4KVWLTJJFC7MGXUA74P7UJUWDA"

/-- A concrete instantiation of the strkey checks: accept exactly the
two sample keys. -/
def sampleChecks : StrKeyChecks :=
  ⟨fun str => str == gkeySample, fun str => str == ckeySample⟩

/-- A concrete registry record for witnesses. -/
def sampleAsset : Asset := ⟨"USDC", .s gkeySample, 7⟩

/-- A concrete valid override entry for witnesses. -/
def sampleEntry : Entry := [("code", .s "USDC"), ("issuer", .s gkeySample)]

/-- The directory `build_sep1_currencies` produces from `sampleAsset`
alone. -/
def sampleDirectory : List Entry :=
  [[("code", .s "USDC"), ("issuer", .s gkeySample), ("display_decimals", .i 7),
    ("status", .s "live"), ("desc", .s "USDC token"), ("is_asset_anchored", .b true),
    ("anchor_asset_type", .s "fiat"), ("anchor_asset", .s "USDC")]]

/-- A concrete entry carrying both `issuer` and `contract`. -/
def sampleConflictEntry : Entry :=
  [("code", .s "USDC"), ("issuer", .s gkeySample), ("contract", .s ckeySample)]

/-- A concrete base entry as the seed loop would store it. -/
def sampleBase : Entry :=
  [("code", .s "USDC"), ("issuer", .s gkeySample), ("display_decimals", .i 7)]

/-- A keyed map holding `sampleBase` under its composite key. -/
def sampleMap : KeyedMap := [((.s "USDC", .s gkeySample, .null), sampleBase)]

/-- A concrete override entry sharing `sampleBase`'s composite key and
overriding its `status`. -/
def sampleOverrideEntry : Entry :=
  [("code", .s "USDC"), ("issuer", .s gkeySample), ("status", .s "test")]

/-- A base entry carrying a field name outside the known-field set. -/
def baseWithUnknownField : Entry :=
  [("code", .s "USDC"), ("issuer", .s gkeySample), ("zzz", .s "x")]

/-- A keyed map holding `baseWithUnknownField` under its composite key. -/
def mapWithUnknownField : KeyedMap :=
  [((.s "USDC", .s gkeySample, .null), baseWithUnknownField)]

/-- The two messages of the loader's structural checks (source lines
217 and 220): the payload is not valid JSON, or not a JSON list.  These
are the spec's StructuralError kind; every other loader failure is an
index-qualified per-entry validation error. -/
def structuralErrorMessages : List String :=
  [envVarName ++ " must be valid JSON", envVarName ++ " must be a JSON list of objects"]

/-- Test for a JSON array (Python `isinstance(data, list)`). -/
def JValue.isArr : JValue → Bool
  | .arr _ => true
  | _ => false

/-- Test for a JSON object (Python `isinstance(entry, Mapping)`). -/
def JValue.isObj : JValue → Bool
  | .obj _ => true
  | _ => false

/-- Whether an `issuer` value would pass the issuer clause of
`validate_currency_entry`: a non-empty string accepted by the public-key
format check. -/
def passesIssuerCheck (ck : StrKeyChecks) : JValue → Bool
  | .s str => !(str == "") && ck.isValidEd25519PublicKey str
  | _ => false

/-- Whether a `contract` value would pass the contract clause of
`validate_currency_entry`. -/
def passesContractCheck (ck : StrKeyChecks) : JValue → Bool
  | .s str => !(str == "") && ck.isValidContract str
  | _ => false

mutual

theorem JValue.beq_refl : ∀ a : JValue, JValue.beq a a = true
  | .null => rfl
  | .s a => by simp [JValue.beq]
  | .b a => by simp [JValue.beq]
  | .i a => by simp [JValue.beq]
  | .arr a => by simp [JValue.beq, JValue.beqList_refl a]
  | .obj a => by simp [JValue.beq, JValue.beqFields_refl a]

theorem JValue.beqList_refl : ∀ l : List JValue, JValue.beqList l l = true
  | [] => rfl
  | x :: xs => by simp [JValue.beqList, JValue.beq_refl x, JValue.beqList_refl xs]

theorem JValue.beqFields_refl : ∀ l : List (String × JValue), JValue.beqFields l l = true
  | [] => rfl
  | (k, v) :: xs => by simp [JValue.beqFields, JValue.beq_refl v, JValue.beqFields_refl xs]

end

/-- When boolean equality refutes, propositional equality fails too (the
direction the deduplication proofs need; completeness is not used). -/
theorem JValue.ne_of_beq_false {a c : JValue} (h : JValue.beq a c = false) : a ≠ c := by
  intro he
  rw [he, JValue.beq_refl] at h
  exact Bool.noConfusion h

theorem lexLt3_iff {α : Type} [LinearOrder α] (a c : α × α × α) :
    lexLt3 a c = true ↔
      a.1 < c.1 ∨ (a.1 = c.1 ∧ (a.2.1 < c.2.1 ∨ (a.2.1 = c.2.1 ∧ a.2.2 < c.2.2))) := by
  simp [lexLt3]

theorem lexLt3_trans {α : Type} [LinearOrder α] {a c d : α × α × α}
    (h1 : lexLt3 a c = true) (h2 : lexLt3 c d = true) : lexLt3 a d = true := by
  rw [lexLt3_iff] at h1 h2 ⊢
  rcases h1 with h1 | ⟨e1, h1⟩
  · rcases h2 with h2 | ⟨e2, _⟩
    · exact Or.inl (lt_trans h1 h2)
    · exact Or.inl (e2 ▸ h1)
  · rcases h2 with h2 | ⟨e2, h2⟩
    · exact Or.inl (e1 ▸ h2)
    · refine Or.inr ⟨e1.trans e2, ?_⟩
      rcases h1 with h1 | ⟨f1, h1⟩
      · rcases h2 with h2 | ⟨f2, _⟩
        · exact Or.inl (lt_trans h1 h2)
        · exact Or.inl (f2 ▸ h1)
      · rcases h2 with h2 | ⟨f2, h2⟩
        · exact Or.inl (f1 ▸ h2)
        · exact Or.inr ⟨f1.trans f2, lt_trans h1 h2⟩

theorem lexLt3_eq_of_not {α : Type} [LinearOrder α] {a c : α × α × α}
    (h1 : lexLt3 a c = false) (h2 : lexLt3 c a = false) : a = c := by
  have n1 : ¬ lexLt3 a c = true := by simp [h1]
  have n2 : ¬ lexLt3 c a = true := by simp [h2]
  rw [lexLt3_iff] at n1 n2
  push_neg at n1 n2
  obtain ⟨a1, a2, a3⟩ := a
  obtain ⟨c1, c2, c3⟩ := c
  simp only at n1 n2 ⊢
  rcases lt_trichotomy a1 c1 with h | h | h
  · exact absurd h (not_lt.mpr n1.1)
  · subst h
    rcases lt_trichotomy a2 c2 with g | g | g
    · exact absurd g (not_lt.mpr ((n1.2 rfl).1))
    · subst g
      rcases lt_trichotomy a3 c3 with f | f | f
      · exact absurd f (not_lt.mpr ((n1.2 rfl).2 rfl))
      · subst f; rfl
      · exact absurd f (not_lt.mpr ((n2.2 rfl).2 rfl))
    · exact absurd g (not_lt.mpr ((n2.2 rfl).1))
  · exact absurd h (not_lt.mpr n2.1)

theorem lexLt3_asymm {α : Type} [LinearOrder α] {a c : α × α × α}
    (h : lexLt3 a c = true) : lexLt3 c a = false := by
  cases hca : lexLt3 c a with
  | false => rfl
  | true =>
    have := lexLt3_trans h hca
    rw [lexLt3_iff] at this
    rcases this with this | ⟨_, this | ⟨_, this⟩⟩ <;> exact absurd this (lt_irrefl _)

theorem lexLt3_negtrans {α : Type} [LinearOrder α] {a c d : α × α × α}
    (h1 : lexLt3 c a = false) (h2 : lexLt3 c d = true) : lexLt3 a d = true := by
  cases h3 : lexLt3 a c with
  | true => exact lexLt3_trans h3 h2
  | false => rw [lexLt3_eq_of_not h3 h1]; exact h2

theorem lexLe3_of_not_lt {α : Type} [LinearOrder α] {a c : α × α × α}
    (h : lexLt3 c a = false) : lexLe3 a c = true := by
  cases h2 : lexLt3 a c with
  | true => simp [lexLe3, h2]
  | false => simp [lexLe3, lexLt3_eq_of_not h2 h]

theorem perm_insertSorted {α : Type} (lt : α → α → Bool) (x : α) :
    ∀ l : List α, (insertSorted lt x l).Perm (x :: l)
  | [] => List.Perm.refl _
  | y :: ys => by
    simp only [insertSorted]
    cases h : lt y x with
    | true =>
      simp only [if_pos rfl]
      exact ((perm_insertSorted lt x ys).cons y).trans (List.Perm.swap x y ys)
    | false =>
      simp

theorem perm_insertionSort {α : Type} (lt : α → α → Bool) :
    ∀ l : List α, (insertionSort lt l).Perm l
  | [] => List.Perm.refl _
  | x :: xs =>
    (perm_insertSorted lt x (insertionSort lt xs)).trans
      ((perm_insertionSort lt xs).cons x)

theorem pairwise_insertSorted {α : Type} (lt : α → α → Bool)
    (hasym : ∀ a c, lt a c = true → lt c a = false)
    (hneg : ∀ a c d, lt c a = false → lt c d = true → lt a d = true)
    (x : α) :
    ∀ l : List α, l.Pairwise (fun a c => lt c a = false) →
      (insertSorted lt x l).Pairwise (fun a c => lt c a = false)
  | [], _ => by simp [insertSorted]
  | y :: ys, hp => by
    rcases List.pairwise_cons.mp hp with ⟨hy, hys⟩
    simp only [insertSorted]
    cases h : lt y x with
    | true =>
      simp only [if_pos rfl]
      refine List.pairwise_cons.mpr ⟨?_, pairwise_insertSorted lt hasym hneg x ys hys⟩
      intro z hz
      rcases List.mem_cons.mp ((perm_insertSorted lt x ys).mem_iff.mp hz) with hz2 | hz2
      · subst hz2; exact hasym y z h
      · exact hy z hz2
    | false =>
      simp only [Bool.false_eq_true, if_false]
      refine List.pairwise_cons.mpr ⟨?_, hp⟩
      intro z hz
      rcases List.mem_cons.mp hz with hz | hz
      · subst hz; exact h
      · cases hzx : lt z x with
        | false => rfl
        | true => rw [hneg y z x (hy z hz) hzx] at h; exact h

theorem pairwise_insertionSort {α : Type} (lt : α → α → Bool)
    (hasym : ∀ a c, lt a c = true → lt c a = false)
    (hneg : ∀ a c d, lt c a = false → lt c d = true → lt a d = true) :
    ∀ l : List α, (insertionSort lt l).Pairwise (fun a c => lt c a = false)
  | [] => List.Pairwise.nil
  | x :: xs =>
    pairwise_insertSorted lt hasym hneg x (insertionSort lt xs)
      (pairwise_insertionSort lt hasym hneg xs)

theorem lookupField_append (e1 e2 : Entry) (f : String) :
    lookupField (e1 ++ e2) f =
      match lookupField e1 f with
      | some v => some v
      | none => lookupField e2 f := by
  induction e1 with
  | nil => rfl
  | cons kv rest ih =>
    obtain ⟨k, v⟩ := kv
    by_cases h : k = f
    · simp [lookupField, h]
    · simp [lookupField, h, ih]

theorem lookupField_append_of_has {e1 : Entry} {f : String} (e2 : Entry)
    (h : hasField e1 f = true) : lookupField (e1 ++ e2) f = lookupField e1 f := by
  rw [lookupField_append]
  cases hl : lookupField e1 f with
  | some v => rfl
  | none => rw [hasField, hl] at h; exact absurd h (by simp)

theorem lookupField_append_of_not {e1 : Entry} {f : String} (e2 : Entry)
    (h : hasField e1 f = false) : lookupField (e1 ++ e2) f = lookupField e2 f := by
  rw [lookupField_append]
  cases hl : lookupField e1 f with
  | some v => rw [hasField, hl] at h; exact absurd h (by simp)
  | none => rfl

theorem setdefault_of_has {e : Entry} {k : String} (v : JValue)
    (h : hasField e k = true) : setdefault e k v = e := by
  simp [setdefault, h]

theorem setdefault_of_not {e : Entry} {k : String} (v : JValue)
    (h : hasField e k = false) : setdefault e k v = e ++ [(k, v)] := by
  simp [setdefault, h]

theorem lookupField_setdefault_of_has {e : Entry} {f : String} (k : String) (v : JValue)
    (h : hasField e f = true) : lookupField (setdefault e k v) f = lookupField e f := by
  cases hk : hasField e k with
  | true => rw [setdefault_of_has v hk]
  | false => rw [setdefault_of_not v hk, lookupField_append_of_has _ h]

theorem lookupField_setdefault_of_ne {e : Entry} {f k : String} (v : JValue)
    (hne : f ≠ k) : lookupField (setdefault e k v) f = lookupField e f := by
  cases hk : hasField e k with
  | true => rw [setdefault_of_has v hk]
  | false =>
    rw [setdefault_of_not v hk, lookupField_append]
    cases hl : lookupField e f with
    | some v2 => rfl
    | none => simp [lookupField, if_neg (Ne.symm hne)]

theorem hasField_setdefault_self (e : Entry) (k : String) (v : JValue) :
    hasField (setdefault e k v) k = true := by
  cases hk : hasField e k with
  | true => rw [setdefault_of_has v hk]; exact hk
  | false =>
    rw [setdefault_of_not v hk]
    rw [hasField, lookupField_append_of_not _ hk]
    simp [lookupField]

theorem hasField_setdefault_of_has {e : Entry} {f : String} (k : String) (v : JValue)
    (h : hasField e f = true) : hasField (setdefault e k v) f = true := by
  rw [hasField, lookupField_setdefault_of_has k v h]; exact h

theorem hasField_setdefault_of_ne {e : Entry} {f k : String} (v : JValue)
    (hne : f ≠ k) : hasField (setdefault e k v) f = hasField e f := by
  rw [hasField, lookupField_setdefault_of_ne v hne]; rfl

theorem lookupField_setdefault_self_of_not {e : Entry} {k : String} (v : JValue)
    (h : hasField e k = false) : lookupField (setdefault e k v) k = some v := by
  rw [setdefault_of_not v h, lookupField_append_of_not _ h]
  simp [lookupField]

theorem lookupField_setItem_self (k : String) (v : JValue) :
    ∀ e : Entry, lookupField (setItem e k v) k = some v
  | [] => by simp [setItem, lookupField]
  | (k2, v2) :: rest => by
    by_cases h : k2 = k
    · simp [setItem, h, lookupField]
    · simp [setItem, h, lookupField, lookupField_setItem_self k v rest]

theorem lookupField_setItem_ne {f k : String} (v : JValue) (hne : f ≠ k) :
    ∀ e : Entry, lookupField (setItem e k v) f = lookupField e f
  | [] => by simp [setItem, lookupField, if_neg (Ne.symm hne)]
  | (k2, v2) :: rest => by
    by_cases h : k2 = k
    · subst h
      simp [setItem, lookupField, if_neg (Ne.symm hne)]
    · simp [setItem, h, lookupField, lookupField_setItem_ne v hne rest]

theorem setItem_of_lookup {k : String} {v : JValue} :
    ∀ {e : Entry}, lookupField e k = some v → setItem e k v = e
  | [], h => by simp [lookupField] at h
  | (k2, v2) :: rest, h => by
    by_cases hk : k2 = k
    · subst hk
      have h2 : v2 = v := by simpa [lookupField] using h
      subst h2
      simp [setItem]
    · simp only [lookupField, if_neg hk] at h
      simp [setItem, hk, setItem_of_lookup h]

theorem lookupField_eq_none_of_not_mem {f : String} :
    ∀ {e : Entry}, f ∉ fieldNames e → lookupField e f = none
  | [], _ => rfl
  | (k, v) :: rest, h => by
    rw [show fieldNames ((k, v) :: rest) = k :: fieldNames rest from rfl,
      List.mem_cons] at h
    push_neg at h
    simp only [lookupField, if_neg (fun (he : k = f) => h.1 he.symm)]
    exact lookupField_eq_none_of_not_mem h.2

theorem lookupField_updateWith (f : String) :
    ∀ (ov : Entry), (fieldNames ov).Nodup → ∀ base : Entry,
      lookupField (updateWith base ov) f =
        match lookupField ov f with
        | some v => some v
        | none => lookupField base f
  | [], _, base => by simp [updateWith, lookupField]
  | (k, v) :: rest, hnd, base => by
    have hcons : fieldNames ((k, v) :: rest) = k :: fieldNames rest := by
      simp [fieldNames]
    rw [hcons] at hnd
    rcases List.nodup_cons.mp hnd with ⟨hk, hnd2⟩
    have hstep : updateWith base ((k, v) :: rest) = updateWith (setItem base k v) rest := rfl
    rw [hstep, lookupField_updateWith f rest hnd2 (setItem base k v)]
    by_cases hf : f = k
    · subst hf
      rw [lookupField_eq_none_of_not_mem hk]
      simp [lookupField, lookupField_setItem_self]
    · simp only [lookupField, if_neg (fun (he : k = f) => hf he.symm)]
      cases lookupField rest f with
      | some w => rfl
      | none => simp [lookupField_setItem_ne v hf base]

theorem ckeyBeq_refl (a : CompositeKey) : ckeyBeq a a = true := by
  obtain ⟨x, y, z⟩ := a
  simp [ckeyBeq, JValue.beq_refl]

theorem ne_of_ckeyBeq_false {a c : CompositeKey} (h : ckeyBeq a c = false) : a ≠ c := by
  intro he
  rw [he, ckeyBeq_refl] at h
  exact Bool.noConfusion h

theorem not_seen_of_any_false {seen : List CompositeKey} {key : CompositeKey}
    (h : (seen.any fun k => ckeyBeq key k) = false) :
    ∀ k ∈ seen, key ≠ k := by
  intro k hk
  have h2 : ¬ ((seen.any fun k => ckeyBeq key k) = true) := by simp [h]
  rw [List.any_eq_true] at h2
  push_neg at h2
  have h3 := h2 k hk
  exact ne_of_ckeyBeq_false (by simpa using h3)

theorem mem_dedupeLoop_not_seen :
    ∀ (l : List Entry) (seen : List CompositeKey), ∀ z ∈ dedupeLoop l seen,
      ∀ k ∈ seen, _currency_key z ≠ k
  | [], _ => by simp [dedupeLoop]
  | c :: rest, seen => by
    simp only [dedupeLoop]
    cases hany : (seen.any fun k => ckeyBeq (_currency_key c) k) with
    | true =>
      simp only [if_pos rfl]
      exact mem_dedupeLoop_not_seen rest seen
    | false =>
      simp only [Bool.false_eq_true, if_false]
      intro z hz k hk
      rcases List.mem_cons.mp hz with hz2 | hz2
      · subst hz2
        exact not_seen_of_any_false hany k hk
      · exact mem_dedupeLoop_not_seen rest (_currency_key c :: seen) z hz2 k
          (List.mem_cons.mpr (Or.inr hk))

theorem pairwise_dedupeLoop :
    ∀ (l : List Entry) (seen : List CompositeKey),
      (dedupeLoop l seen).Pairwise (fun a c => _currency_key a ≠ _currency_key c)
  | [], _ => by simp [dedupeLoop]
  | c :: rest, seen => by
    simp only [dedupeLoop]
    cases hany : (seen.any fun k => ckeyBeq (_currency_key c) k) with
    | true =>
      simp only [if_pos rfl]
      exact pairwise_dedupeLoop rest seen
    | false =>
      simp only [Bool.false_eq_true, if_false]
      refine List.pairwise_cons.mpr ⟨?_, pairwise_dedupeLoop rest (_currency_key c :: seen)⟩
      intro z hz
      exact Ne.symm (mem_dedupeLoop_not_seen rest (_currency_key c :: seen) z hz
        (_currency_key c) (List.mem_cons.mpr (Or.inl rfl)))

theorem dedupe_pairwise_keys (l : List Entry) :
    (_dedupe_currencies l).Pairwise (fun a c => _currency_key a ≠ _currency_key c) := by
  have hperm := perm_insertionSort currencyLt (dedupeLoop l [])
  exact (List.Perm.pairwise_iff (fun h => Ne.symm h) hperm).mpr (pairwise_dedupeLoop l [])

theorem currencyLt_asymm : ∀ a c : Entry, currencyLt a c = true → currencyLt c a = false :=
  fun _ _ h => lexLt3_asymm h

theorem currencyLt_negtrans :
    ∀ a c d : Entry, currencyLt c a = false → currencyLt c d = true → currencyLt a d = true :=
  fun _ _ _ h1 h2 => lexLt3_negtrans h1 h2

theorem dedupe_sorted (l : List Entry) :
    (_dedupe_currencies l).Pairwise (fun a c => currencyLe a c = true) := by
  have h := pairwise_insertionSort currencyLt currencyLt_asymm currencyLt_negtrans
    (dedupeLoop l [])
  exact h.imp (fun hlt => lexLe3_of_not_lt hlt)

/-- Claim C1: for every registry seed list and override payload for
which the build succeeds, the resulting directory contains no two
entries with the same composite key `(code, issuer, contract)` and is
sorted in nondecreasing order by the total order on
`(code or "", issuer or "", contract or "")`. -/
theorem claim_C1 (ck : StrKeyChecks) (assets : List Asset) (payload : RawPayload)
    (dir : List Entry) (h : build_sep1_currencies ck assets payload = .ok dir) :
    dir.Pairwise (fun a c => _currency_key a ≠ _currency_key c) ∧
      dir.Pairwise (fun a c => currencyLe a c = true) := by
  revert h
  unfold build_sep1_currencies
  cases foldSteps (seedStep ck) [] assets with
  | error msg => intro h; simp at h
  | ok m =>
    cases load_additional_currencies_from_env ck payload with
    | error msg => intro h; simp at h
    | ok envs =>
      intro h
      dsimp only at h
      cases h3 : foldSteps (overrideStep ck) m envs with
      | error msg => rw [h3] at h; simp at h
      | ok m2 =>
        rw [h3] at h
        simp only [Except.ok.injEq] at h
        subst h
        exact ⟨dedupe_pairwise_keys _, dedupe_sorted _⟩

/-- Witness for C1: a concrete one-asset build succeeds and its
directory satisfies both conclusions. -/
theorem claim_C1_witness :
    build_sep1_currencies sampleChecks [sampleAsset] .absent = .ok sampleDirectory ∧
      sampleDirectory.Pairwise (fun a c => _currency_key a ≠ _currency_key c) ∧
      sampleDirectory.Pairwise (fun a c => currencyLe a c = true) :=
  ⟨rfl, claim_C1 sampleChecks [sampleAsset] .absent sampleDirectory rfl⟩

theorem require_string_ok {v : JValue} {f : String} {ml : Option Nat} {str : String}
    (h : _require_string v f ml = .ok str) : v = .s str := by
  cases v with
  | s t =>
    by_cases ht : t = ""
    · simp [_require_string, ht] at h
    · cases ml with
      | some m =>
        by_cases hm : t.length > m
        · simp [_require_string, ht, hm] at h
        · simp [_require_string, ht, hm] at h
          rw [h]
      | none =>
        simp [_require_string, ht] at h
        rw [h]
  | null => simp [_require_string] at h
  | b v => simp [_require_string] at h
  | i v => simp [_require_string] at h
  | arr v => simp [_require_string] at h
  | obj v => simp [_require_string] at h

theorem lookup_of_getPy_s {e : Entry} {f str : String} (h : getPy e f = .s str) :
    lookupField e f = some (.s str) := by
  unfold getPy at h
  cases hl : lookupField e f with
  | none => rw [hl] at h; simp at h
  | some w =>
    rw [hl] at h
    simp only [Option.getD_some] at h
    rw [h]

theorem validate_obj_eq (ck : StrKeyChecks) (e : Entry) (strict : Bool) :
    validate_currency_entry ck (.obj e) strict = validateObjEntry ck e strict := rfl

theorem validateObjEntry_ok {ck : StrKeyChecks} {e : Entry} {strict : Bool} {e2 : Entry}
    (h : validateObjEntry ck e strict = .ok e2) : e2 = e := by
  unfold validateObjEntry at h
  cases h1 : strictCheck e strict with
  | error m => rw [h1] at h; simp at h
  | ok u =>
    rw [h1] at h
    dsimp only at h
    cases h2 : _require_string (getPy e "code") "code" (some 12) with
    | error m => rw [h2] at h; simp at h
    | ok code =>
      rw [h2] at h
      dsimp only at h
      have hsi : setItem e "code" (.s code) = e :=
        setItem_of_lookup (lookup_of_getPy_s (require_string_ok h2))
      rw [hsi] at h
      cases h3 : checkIssuerContract ck e with
      | error m => rw [h3] at h; simp at h
      | ok u2 =>
        rw [h3] at h
        dsimp only at h
        cases h4 : checkOptionalFields e with
        | error m => rw [h4] at h; simp at h
        | ok u3 =>
          rw [h4] at h
          simp only [Except.ok.injEq] at h
          exact h.symm

/-- Claim C8: on success `validate_currency_entry` returns the entry
unchanged, and hence lenient validation is idempotent:
`validate(validate(e, False), False) == validate(e, False)`. -/
theorem claim_C8 (ck : StrKeyChecks) (e : Entry) (strict : Bool) (e2 : Entry)
    (h : validate_currency_entry ck (.obj e) strict = .ok e2) :
    e2 = e ∧
      Except.bind (validate_currency_entry ck (.obj e) false)
          (fun x => validate_currency_entry ck (.obj x) false) =
        validate_currency_entry ck (.obj e) false := by
  rw [validate_obj_eq] at h
  refine ⟨validateObjEntry_ok h, ?_⟩
  cases hv : validate_currency_entry ck (.obj e) false with
  | error m => rfl
  | ok x =>
    have hx : x = e := validateObjEntry_ok ((validate_obj_eq ck e false).symm.trans hv)
    show validate_currency_entry ck (.obj x) false = Except.ok x
    rw [hx] at hv ⊢
    exact hv

/-- Witness for C8 at a concrete entry that validates strictly. -/
theorem claim_C8_witness :
    sampleEntry = sampleEntry ∧
      Except.bind (validate_currency_entry sampleChecks (.obj sampleEntry) false)
          (fun x => validate_currency_entry sampleChecks (.obj x) false) =
        validate_currency_entry sampleChecks (.obj sampleEntry) false :=
  claim_C8 sampleChecks sampleEntry true sampleEntry rfl

theorem validate_reduce (ck : StrKeyChecks) {e : Entry} {strict : Bool} {c : String}
    (hsc : strictCheck e strict = .ok ())
    (hc : _require_string (getPy e "code") "code" (some 12) = .ok c) :
    validate_currency_entry ck (.obj e) strict =
      match checkIssuerContract ck (setItem e "code" (.s c)) with
      | .error m => .error m
      | .ok _ =>
        match checkOptionalFields (setItem e "code" (.s c)) with
        | .error m => .error m
        | .ok _ => .ok (setItem e "code" (.s c)) := by
  rw [validate_obj_eq]
  unfold validateObjEntry
  rw [hsc, hc]

theorem getPy_setItem_ne {e : Entry} {f k : String} (v : JValue) (hne : f ≠ k) :
    getPy (setItem e k v) f = getPy e f := by
  unfold getPy
  rw [lookupField_setItem_ne v hne e]

/-- Claim C4: the issuer/contract cross-field rules.  "Present" is the
source's truthiness test (`if issuer and contract`): a value counts as
supplied when it is truthy.  The hypotheses restrict attention to
entries that pass the checks preceding the issuer/contract clause (no
unknown fields in strict mode, and a valid `code`); an entry failing
those fails validation earlier, with that earlier rule's message. -/
theorem claim_C4 (ck : StrKeyChecks) (e : Entry) (strict : Bool)
    (hstrict : strict = true → unknownFields e = [])
    (hcode : ∃ c, _require_string (getPy e "code") "code" (some 12) = .ok c) :
    (truthy (getPy e "issuer") = true → truthy (getPy e "contract") = true →
      validate_currency_entry ck (.obj e) strict =
        .error "only one of 'issuer' or 'contract' can be set") ∧
    (truthy (getPy e "issuer") = false → truthy (getPy e "contract") = false →
      validate_currency_entry ck (.obj e) strict =
        .error "one of 'issuer' (Stellar Asset) or 'contract' (SEP-41 token) must be set") ∧
    (truthy (getPy e "issuer") = true → truthy (getPy e "contract") = false →
      passesIssuerCheck ck (getPy e "issuer") = false →
      ∃ msg, validate_currency_entry ck (.obj e) strict = .error msg) ∧
    (truthy (getPy e "contract") = true → truthy (getPy e "issuer") = false →
      passesContractCheck ck (getPy e "contract") = false →
      ∃ msg, validate_currency_entry ck (.obj e) strict = .error msg) := by
  obtain ⟨c, hc⟩ := hcode
  have hsc : strictCheck e strict = .ok () := by
    cases strict with
    | false => rfl
    | true => simp [strictCheck, hstrict rfl]
  have hred := validate_reduce ck hsc hc
  have hiss : getPy (setItem e "code" (.s c)) "issuer" = getPy e "issuer" :=
    getPy_setItem_ne (.s c) (by decide)
  have hcon : getPy (setItem e "code" (.s c)) "contract" = getPy e "contract" :=
    getPy_setItem_ne (.s c) (by decide)
  refine ⟨?_, ?_, ?_, ?_⟩
  · intro h1 h2
    have h3 : checkIssuerContract ck (setItem e "code" (.s c)) =
        .error "only one of 'issuer' or 'contract' can be set" := by
      unfold checkIssuerContract
      rw [hiss, hcon]
      dsimp only
      simp [h1, h2]
    rw [hred, h3]
  · intro h1 h2
    have h3 : checkIssuerContract ck (setItem e "code" (.s c)) =
        .error "one of 'issuer' (Stellar Asset) or 'contract' (SEP-41 token) must be set" := by
      unfold checkIssuerContract
      rw [hiss, hcon]
      dsimp only
      simp [h1, h2]
    rw [hred, h3]
  · intro h1 h2 h3
    have h4 : ∃ msg, checkIssuerContract ck (setItem e "code" (.s c)) = .error msg := by
      unfold checkIssuerContract
      rw [hiss, hcon]
      dsimp only
      rw [h1, h2]
      simp only [Bool.true_and, Bool.and_false, Bool.not_true, Bool.false_and,
        Bool.false_eq_true, if_false]
      cases hv : getPy e "issuer" with
      | null => rw [hv] at h1; simp [truthy] at h1
      | s str =>
        rw [hv] at h1 h3
        have hne : ¬ (str = "") := by
          intro he
          rw [he] at h1
          simp [truthy] at h1
        have hval : ck.isValidEd25519PublicKey str = false := by
          have h1b : (str == "") = false := by
            simp only [truthy] at h1
            cases hb : (str == "") with
            | false => rfl
            | true => rw [hb] at h1; simp at h1
          simp only [passesIssuerCheck, h1b, Bool.not_false, Bool.true_and] at h3
          exact h3
        refine ⟨"'issuer' must be a valid Stellar public key (G...)", ?_⟩
        simp [checkIssuerField, _require_string, hne, hval]
      | b bv => exact ⟨"'issuer' must be a non-empty string", by simp [checkIssuerField, _require_string]⟩
      | i n => exact ⟨"'issuer' must be a non-empty string", by simp [checkIssuerField, _require_string]⟩
      | arr l => exact ⟨"'issuer' must be a non-empty string", by simp [checkIssuerField, _require_string]⟩
      | obj l => exact ⟨"'issuer' must be a non-empty string", by simp [checkIssuerField, _require_string]⟩
    obtain ⟨msg, h4⟩ := h4
    exact ⟨msg, by rw [hred, h4]⟩
  · intro h1 h2 h3
    have h4 : ∃ msg, checkIssuerContract ck (setItem e "code" (.s c)) = .error msg := by
      unfold checkIssuerContract
      rw [hiss, hcon]
      dsimp only
      rw [h1, h2]
      simp only [Bool.false_and, Bool.not_false, Bool.not_true, Bool.and_false,
        Bool.true_and, Bool.false_eq_true, if_false]
      cases hv : getPy e "issuer" with
      | null =>
        simp only [checkIssuerField]
        cases hw : getPy e "contract" with
        | null => rw [hw] at h1; simp [truthy] at h1
        | s str =>
          rw [hw] at h1 h3
          have hne : ¬ (str = "") := by
            intro he
            rw [he] at h1
            simp [truthy] at h1
          have hval : ck.isValidContract str = false := by
            have h1b : (str == "") = false := by
              simp only [truthy] at h1
              cases hb : (str == "") with
              | false => rfl
              | true => rw [hb] at h1; simp at h1
            simp only [passesContractCheck, h1b, Bool.not_false, Bool.true_and] at h3
            exact h3
          refine ⟨"'contract' must be a valid Stellar contract ID (C...)", ?_⟩
          simp [checkContractField, _require_string, hne, hval]
        | b bv => exact ⟨"'contract' must be a non-empty string", by simp [checkContractField, _require_string]⟩
        | i n => exact ⟨"'contract' must be a non-empty string", by simp [checkContractField, _require_string]⟩
        | arr l => exact ⟨"'contract' must be a non-empty string", by simp [checkContractField, _require_string]⟩
        | obj l => exact ⟨"'contract' must be a non-empty string", by simp [checkContractField, _require_string]⟩
      | s str =>
        rw [hv] at h2
        have hemp : (str == "") = true := by
          simp only [truthy] at h2
          cases hb : (str == "") with
          | true => rfl
          | false => rw [hb] at h2; simp at h2
        have hstr : str = "" := by simpa using hemp
        exact ⟨"'issuer' must be a non-empty string",
          by simp [checkIssuerField, _require_string, hstr]⟩
      | b bv => exact ⟨"'issuer' must be a non-empty string", by simp [checkIssuerField, _require_string]⟩
      | i n => exact ⟨"'issuer' must be a non-empty string", by simp [checkIssuerField, _require_string]⟩
      | arr l => exact ⟨"'issuer' must be a non-empty string", by simp [checkIssuerField, _require_string]⟩
      | obj l => exact ⟨"'issuer' must be a non-empty string", by simp [checkIssuerField, _require_string]⟩
    obtain ⟨msg, h4⟩ := h4
    exact ⟨msg, by rw [hred, h4]⟩

/-- Counterexample for C4 as stated over all entries: an entry with both
`issuer` and `contract` present but no `code` fails validation with the
`code` rule's message, not one naming the issuer/contract conflict — the
`code` check precedes the issuer/contract clause. -/
theorem claim_C4_counterexample :
    truthy (getPy ([("issuer", .s gkeySample), ("contract", .s ckeySample)] : Entry)
      "issuer") = true ∧
    truthy (getPy ([("issuer", .s gkeySample), ("contract", .s ckeySample)] : Entry)
      "contract") = true ∧
    validate_currency_entry sampleChecks
        (.obj [("issuer", .s gkeySample), ("contract", .s ckeySample)]) true =
      .error "'code' must be a non-empty string" ∧
    "'code' must be a non-empty string" ≠ "only one of 'issuer' or 'contract' can be set" :=
  ⟨rfl, rfl, rfl, by decide⟩

/-- Witness for C4: a concrete entry with both `issuer` and `contract`
set fails with the conflict message. -/
theorem claim_C4_witness :
    validate_currency_entry sampleChecks (.obj sampleConflictEntry) true =
      .error "only one of 'issuer' or 'contract' can be set" :=
  (claim_C4 sampleChecks sampleConflictEntry true (fun _ => rfl) ⟨"USDC", rfl⟩).1 rfl rfl

theorem defaultsChain_lookup_of_has {e : Entry} {f : String} (h : hasField e f = true) :
    lookupField (defaultsChain e) f = lookupField e f := by
  have h1 := hasField_setdefault_of_has "status" (JValue.s "live") h
  have h2 := hasField_setdefault_of_has "desc"
    (JValue.s (pyStr (defaultCode e) ++ " token")) h1
  have h3 := hasField_setdefault_of_has "is_asset_anchored" (JValue.b true) h2
  have h4 := hasField_setdefault_of_has "anchor_asset_type" (JValue.s "fiat") h3
  have h5 := hasField_setdefault_of_has "anchor_asset" (defaultCode e) h4
  unfold defaultsChain
  dsimp only
  rw [lookupField_setdefault_of_has _ _ h5, lookupField_setdefault_of_has _ _ h4,
    lookupField_setdefault_of_has _ _ h3, lookupField_setdefault_of_has _ _ h2,
    lookupField_setdefault_of_has _ _ h1, lookupField_setdefault_of_has _ _ h]

theorem defaultsChain_has_of_has {e : Entry} {f : String} (h : hasField e f = true) :
    hasField (defaultsChain e) f = true := by
  rw [hasField, defaultsChain_lookup_of_has h]
  exact h

theorem defaultsChain_has_status (e : Entry) :
    hasField (defaultsChain e) "status" = true := by
  unfold defaultsChain
  dsimp only
  apply hasField_setdefault_of_has
  apply hasField_setdefault_of_has
  apply hasField_setdefault_of_has
  apply hasField_setdefault_of_has
  apply hasField_setdefault_of_has
  exact hasField_setdefault_self e "status" (.s "live")

theorem defaultsChain_has_desc (e : Entry) :
    hasField (defaultsChain e) "desc" = true := by
  unfold defaultsChain
  dsimp only
  apply hasField_setdefault_of_has
  apply hasField_setdefault_of_has
  apply hasField_setdefault_of_has
  apply hasField_setdefault_of_has
  exact hasField_setdefault_self _ "desc" _

theorem defaultsChain_has_anchored (e : Entry) :
    hasField (defaultsChain e) "is_asset_anchored" = true := by
  unfold defaultsChain
  dsimp only
  apply hasField_setdefault_of_has
  apply hasField_setdefault_of_has
  apply hasField_setdefault_of_has
  exact hasField_setdefault_self _ "is_asset_anchored" _

theorem defaultsChain_has_aat (e : Entry) :
    hasField (defaultsChain e) "anchor_asset_type" = true := by
  unfold defaultsChain
  dsimp only
  apply hasField_setdefault_of_has
  apply hasField_setdefault_of_has
  exact hasField_setdefault_self _ "anchor_asset_type" (.s "fiat")

theorem defaultsChain_firstMissing_none {e : Entry} (hcode : hasField e "code" = true) :
    firstMissingRequired (defaultsChain e) = none := by
  unfold firstMissingRequired
  rw [List.find?_eq_none]
  intro f hf
  unfold _ANCHOR_TESTS_REQUIRED_FIELDS at hf
  simp only [List.mem_cons, List.not_mem_nil, or_false] at hf
  rcases hf with rfl | rfl | rfl | rfl | rfl
  · simp [defaultsChain_has_anchored e]
  · simp [defaultsChain_has_aat e]
  · simp [defaultsChain_has_of_has hcode]
  · simp [defaultsChain_has_desc e]
  · simp [defaultsChain_has_status e]

theorem defaults_ok {e : Entry} (hcode : hasField e "code" = true) :
    _apply_required_field_defaults e = .ok (defaultsChain e) := by
  unfold _apply_required_field_defaults
  dsimp only
  rw [defaultsChain_firstMissing_none hcode]

theorem defaultsChain_eq_single (e : Entry) : defaultsChain e = defaultsChainSingle e := by
  unfold defaultsChain defaultsChainSingle
  dsimp only
  exact setdefault_of_has _
    (hasField_setdefault_of_has "anchor_asset" (defaultCode e)
      (hasField_setdefault_self _ "anchor_asset_type" (.s "fiat")))

theorem defaultsChainSingle_lookup_aat {e : Entry}
    (hn : hasField e "anchor_asset_type" = false) :
    lookupField (defaultsChainSingle e) "anchor_asset_type" = some (.s "fiat") := by
  unfold defaultsChainSingle
  dsimp only
  rw [lookupField_setdefault_of_ne _
    (show "anchor_asset_type" ≠ "anchor_asset" by decide)]
  apply lookupField_setdefault_self_of_not
  rw [hasField_setdefault_of_ne _ (show "anchor_asset_type" ≠ "is_asset_anchored" by decide),
    hasField_setdefault_of_ne _ (show "anchor_asset_type" ≠ "desc" by decide),
    hasField_setdefault_of_ne _ (show "anchor_asset_type" ≠ "status" by decide)]
  exact hn

/-- Claim C3: `_apply_required_field_defaults` never changes a present
field; for fields absent from the input it sets `status` to `"live"`,
`desc` to the entry's code followed by `" token"`, `is_asset_anchored`
to `true`, `anchor_asset` to the entry's own code, and
`anchor_asset_type` to `"fiat"` (one of the allowed anchor-asset
classifications); every other field of the input is left unchanged.
Stated for entries whose `code` is a non-empty string, as the claim's
phrase "the entry's code" presupposes. -/
theorem claim_C3 (e : Entry) (c : String) (hc : lookupField e "code" = some (.s c))
    (hne : c ≠ "") :
    _apply_required_field_defaults e = .ok (defaultsChain e) ∧
    (∀ f, hasField e f = true → lookupField (defaultsChain e) f = lookupField e f) ∧
    (hasField e "status" = false →
      lookupField (defaultsChain e) "status" = some (.s "live")) ∧
    (hasField e "desc" = false →
      lookupField (defaultsChain e) "desc" = some (.s (c ++ " token"))) ∧
    (hasField e "is_asset_anchored" = false →
      lookupField (defaultsChain e) "is_asset_anchored" = some (.b true)) ∧
    (hasField e "anchor_asset" = false →
      lookupField (defaultsChain e) "anchor_asset" = some (.s c)) ∧
    (hasField e "anchor_asset_type" = false →
      lookupField (defaultsChain e) "anchor_asset_type" = some (.s "fiat")) ∧
    _ALLOWED_ANCHOR_ASSET_TYPES.contains "fiat" = true ∧
    (∀ f, hasField e f = false →
      f ∉ (["status", "desc", "is_asset_anchored", "anchor_asset_type",
        "anchor_asset"] : List String) →
      hasField (defaultsChain e) f = false) := by
  have hcode : hasField e "code" = true := by rw [hasField, hc]; rfl
  have hdc : defaultCode e = .s c := by
    unfold defaultCode getPy
    rw [hc]
    simp only [Option.getD_some, truthy]
    rw [beq_eq_false_iff_ne.mpr hne]
    simp
  refine ⟨defaults_ok hcode, fun f hf => defaultsChain_lookup_of_has hf, ?_, ?_, ?_, ?_, ?_,
    by decide, ?_⟩
  · intro hs
    unfold defaultsChain
    dsimp only
    rw [lookupField_setdefault_of_ne _ (show "status" ≠ "anchor_asset_type" by decide),
      lookupField_setdefault_of_ne _ (show "status" ≠ "anchor_asset" by decide),
      lookupField_setdefault_of_ne _ (show "status" ≠ "anchor_asset_type" by decide),
      lookupField_setdefault_of_ne _ (show "status" ≠ "is_asset_anchored" by decide),
      lookupField_setdefault_of_ne _ (show "status" ≠ "desc" by decide)]
    exact lookupField_setdefault_self_of_not _ hs
  · intro hs
    unfold defaultsChain
    dsimp only
    rw [hdc]
    rw [lookupField_setdefault_of_ne _ (show "desc" ≠ "anchor_asset_type" by decide),
      lookupField_setdefault_of_ne _ (show "desc" ≠ "anchor_asset" by decide),
      lookupField_setdefault_of_ne _ (show "desc" ≠ "anchor_asset_type" by decide),
      lookupField_setdefault_of_ne _ (show "desc" ≠ "is_asset_anchored" by decide)]
    have h1 : hasField (setdefault e "status" (.s "live")) "desc" = false := by
      rw [hasField_setdefault_of_ne _ (show "desc" ≠ "status" by decide)]
      exact hs
    rw [lookupField_setdefault_self_of_not _ h1]
    rfl
  · intro hs
    unfold defaultsChain
    dsimp only
    rw [lookupField_setdefault_of_ne _
        (show "is_asset_anchored" ≠ "anchor_asset_type" by decide),
      lookupField_setdefault_of_ne _ (show "is_asset_anchored" ≠ "anchor_asset" by decide),
      lookupField_setdefault_of_ne _
        (show "is_asset_anchored" ≠ "anchor_asset_type" by decide)]
    apply lookupField_setdefault_self_of_not
    rw [hasField_setdefault_of_ne _ (show "is_asset_anchored" ≠ "desc" by decide),
      hasField_setdefault_of_ne _ (show "is_asset_anchored" ≠ "status" by decide)]
    exact hs
  · intro hs
    unfold defaultsChain
    dsimp only
    rw [hdc]
    rw [lookupField_setdefault_of_ne _ (show "anchor_asset" ≠ "anchor_asset_type" by decide)]
    apply lookupField_setdefault_self_of_not
    rw [hasField_setdefault_of_ne _ (show "anchor_asset" ≠ "anchor_asset_type" by decide),
      hasField_setdefault_of_ne _ (show "anchor_asset" ≠ "is_asset_anchored" by decide),
      hasField_setdefault_of_ne _ (show "anchor_asset" ≠ "desc" by decide),
      hasField_setdefault_of_ne _ (show "anchor_asset" ≠ "status" by decide)]
    exact hs
  · intro hs
    rw [defaultsChain_eq_single]
    exact defaultsChainSingle_lookup_aat hs
  · intro f hf hmem
    simp only [List.mem_cons, List.not_mem_nil, or_false, not_or] at hmem
    obtain ⟨n1, n2, n3, n4, n5⟩ := hmem
    unfold defaultsChain
    dsimp only
    rw [hasField_setdefault_of_ne _ n4, hasField_setdefault_of_ne _ n5,
      hasField_setdefault_of_ne _ n4, hasField_setdefault_of_ne _ n3,
      hasField_setdefault_of_ne _ n2, hasField_setdefault_of_ne _ n1]
    exact hf

/-- Counterexample for C3 as stated over all entries: when `code` is
present but empty (falsy), the defaulting pass uses the fallback string
"TOKEN": `desc` becomes `"TOKEN token"`, not the entry's code followed
by `" token"`, and `anchor_asset` becomes `"TOKEN"`, not the entry's own
code. -/
theorem claim_C3_counterexample :
    _apply_required_field_defaults [("code", JValue.s "")] =
      .ok [("code", .s ""), ("status", .s "live"), ("desc", .s "TOKEN token"),
        ("is_asset_anchored", .b true), ("anchor_asset_type", .s "fiat"),
        ("anchor_asset", .s "TOKEN")] ∧
    ("TOKEN token" : String) ≠ "" ++ " token" ∧
    ("TOKEN" : String) ≠ "" :=
  ⟨rfl, by decide, by decide⟩

/-- Witness for C3 at a concrete entry with `code` "USDC" and no
optional fields. -/
theorem claim_C3_witness :
    _apply_required_field_defaults sampleEntry = .ok (defaultsChain sampleEntry) ∧
    (∀ f, hasField sampleEntry f = true →
      lookupField (defaultsChain sampleEntry) f = lookupField sampleEntry f) ∧
    (hasField sampleEntry "status" = false →
      lookupField (defaultsChain sampleEntry) "status" = some (.s "live")) ∧
    (hasField sampleEntry "desc" = false →
      lookupField (defaultsChain sampleEntry) "desc" = some (.s ("USDC" ++ " token"))) ∧
    (hasField sampleEntry "is_asset_anchored" = false →
      lookupField (defaultsChain sampleEntry) "is_asset_anchored" = some (.b true)) ∧
    (hasField sampleEntry "anchor_asset" = false →
      lookupField (defaultsChain sampleEntry) "anchor_asset" = some (.s "USDC")) ∧
    (hasField sampleEntry "anchor_asset_type" = false →
      lookupField (defaultsChain sampleEntry) "anchor_asset_type" = some (.s "fiat")) ∧
    _ALLOWED_ANCHOR_ASSET_TYPES.contains "fiat" = true ∧
    (∀ f, hasField sampleEntry f = false →
      f ∉ (["status", "desc", "is_asset_anchored", "anchor_asset_type",
        "anchor_asset"] : List String) →
      hasField (defaultsChain sampleEntry) f = false) :=
  claim_C3 sampleEntry "USDC" rfl (by decide)

/-- Counterexample for C9: on an entry with no `code` field the
defaulting pass does fail, taking the missing-required-field branch. -/
theorem claim_C9_counterexample :
    _apply_required_field_defaults ([] : Entry) =
      .error "currency entry missing required field 'code' after applying defaults" := rfl

/-- Claim C9 as amended: for every entry that has a `code` field, the
defaults establish all five required fields and
`_apply_required_field_defaults` succeeds; the failure branch is
reachable only for entries lacking `code`, which no caller in the module
produces. -/
theorem claim_C9_amended (e : Entry) (hcode : hasField e "code" = true) :
    _apply_required_field_defaults e = .ok (defaultsChain e) ∧
      ∀ f ∈ _ANCHOR_TESTS_REQUIRED_FIELDS, hasField (defaultsChain e) f = true := by
  refine ⟨defaults_ok hcode, ?_⟩
  intro f hf
  unfold _ANCHOR_TESTS_REQUIRED_FIELDS at hf
  simp only [List.mem_cons, List.not_mem_nil, or_false] at hf
  rcases hf with rfl | rfl | rfl | rfl | rfl
  · exact defaultsChain_has_anchored e
  · exact defaultsChain_has_aat e
  · exact defaultsChain_has_of_has hcode
  · exact defaultsChain_has_desc e
  · exact defaultsChain_has_status e

/-- Witness for the amended C9 at a concrete entry. -/
theorem claim_C9_witness :
    _apply_required_field_defaults sampleEntry = .ok (defaultsChain sampleEntry) ∧
      ∀ f ∈ _ANCHOR_TESTS_REQUIRED_FIELDS,
        hasField (defaultsChain sampleEntry) f = true :=
  claim_C9_amended sampleEntry rfl

/-- Claim C10: the second `anchor_asset_type` default (to `"other"`)
never takes effect: the function with that assignment removed is
extensionally equal to the function as written, and an entry missing
`anchor_asset_type` comes out with the first default, `"fiat"`. -/
theorem claim_C10 :
    (∀ e, _apply_required_field_defaults e = _apply_required_field_defaults_single e) ∧
    (∀ e e2, hasField e "anchor_asset_type" = false →
      _apply_required_field_defaults e = .ok e2 →
      lookupField e2 "anchor_asset_type" = some (.s "fiat")) := by
  constructor
  · intro e
    unfold _apply_required_field_defaults _apply_required_field_defaults_single
    rw [defaultsChain_eq_single]
  · intro e e2 hn h
    unfold _apply_required_field_defaults at h
    dsimp only at h
    cases hm : firstMissingRequired (defaultsChain e) with
    | some f => rw [hm] at h; simp at h
    | none =>
      rw [hm] at h
      simp only [Except.ok.injEq] at h
      rw [← h, defaultsChain_eq_single]
      exact defaultsChainSingle_lookup_aat hn

/-- Witness for C10's second conjunct at a concrete entry. -/
theorem claim_C10_witness :
    lookupField (defaultsChain sampleEntry) "anchor_asset_type" = some (.s "fiat") :=
  claim_C10.2 sampleEntry (defaultsChain sampleEntry) rfl rfl

/-- Claim C2: when an override shares its composite key with an entry
already in the keyed map, the merged entry (before re-defaulting) maps
every field named in the override to the override's value and every
field the override omits to the base entry's value. -/
theorem claim_C2 (m : KeyedMap) (ov base : Entry) (f : String)
    (hnd : (fieldNames ov).Nodup)
    (hb : mapGet m (_currency_key ov) = some base) :
    lookupField (mergedEntryOf m ov) f =
      match lookupField ov f with
      | some v => some v
      | none => lookupField base f := by
  unfold mergedEntryOf
  rw [hb]
  simp only [Option.getD_some]
  exact lookupField_updateWith f ov hnd base

/-- Witness for C2: the merged entry keeps the base's
`display_decimals`, which the override omits. -/
theorem claim_C2_witness :
    lookupField (mergedEntryOf sampleMap sampleOverrideEntry) "display_decimals" =
      match lookupField sampleOverrideEntry "display_decimals" with
      | some v => some v
      | none => lookupField sampleBase "display_decimals" :=
  claim_C2 sampleMap sampleOverrideEntry sampleBase "display_decimals" (by decide) rfl

theorem validate_strict_eq_lenient {ck : StrKeyChecks} {e : Entry}
    (h : unknownFields e = []) : validateObjEntry ck e true = validateObjEntry ck e false := by
  unfold validateObjEntry
  have h1 : strictCheck e true = .ok () := by simp [strictCheck, h]
  have h2 : strictCheck e false = .ok () := rfl
  rw [h1, h2]

theorem mem_fieldNames_setdefault {e : Entry} {k f : String} {v : JValue}
    (h : f ∈ fieldNames (setdefault e k v)) : f ∈ fieldNames e ∨ f = k := by
  cases hk : hasField e k with
  | true =>
    rw [setdefault_of_has v hk] at h
    exact Or.inl h
  | false =>
    rw [setdefault_of_not v hk] at h
    rw [show fieldNames (e ++ [(k, v)]) = fieldNames e ++ [k] from by simp [fieldNames]] at h
    rcases List.mem_append.mp h with h | h
    · exact Or.inl h
    · exact Or.inr (List.mem_singleton.mp h)

theorem mem_fieldNames_defaultsChain {e : Entry} {f : String}
    (h : f ∈ fieldNames (defaultsChain e)) :
    f ∈ fieldNames e ∨
      f ∈ (["status", "desc", "is_asset_anchored", "anchor_asset_type",
        "anchor_asset"] : List String) := by
  unfold defaultsChain at h
  dsimp only at h
  rcases mem_fieldNames_setdefault h with h1 | rfl
  · rcases mem_fieldNames_setdefault h1 with h2 | rfl
    · rcases mem_fieldNames_setdefault h2 with h3 | rfl
      · rcases mem_fieldNames_setdefault h3 with h4 | rfl
        · rcases mem_fieldNames_setdefault h4 with h5 | rfl
          · rcases mem_fieldNames_setdefault h5 with h6 | rfl
            · exact Or.inl h6
            · exact Or.inr (by simp)
          · exact Or.inr (by simp)
        · exact Or.inr (by simp)
      · exact Or.inr (by simp)
    · exact Or.inr (by simp)
  · exact Or.inr (by simp)

theorem unknownFields_nil_of_known {e : Entry}
    (h : ∀ f ∈ fieldNames e, f ∈ _KNOWN_CURRENCY_FIELDS) : unknownFields e = [] := by
  unfold unknownFields
  have hfil : (fieldNames e).filter (fun k => !(_KNOWN_CURRENCY_FIELDS.contains k)) = [] := by
    rw [List.filter_eq_nil_iff]
    intro a ha
    simp [h a ha]
  rw [hfil]
  rfl

theorem apply_defaults_ok_inv {e e2 : Entry}
    (h : _apply_required_field_defaults e = .ok e2) : e2 = defaultsChain e := by
  unfold _apply_required_field_defaults at h
  dsimp only at h
  cases hm : firstMissingRequired (defaultsChain e) with
  | some f => rw [hm] at h; simp at h
  | none =>
    rw [hm] at h
    simp only [Except.ok.injEq] at h
    exact h.symm

/-- Counterexample for C5: a merged entry carrying the unknown field
`zzz` does fail the build at the re-validation step, because the source
calls `validate_currency_entry(merged)` with its default `strict=True`;
the spec-worded lenient step accepts the same input. -/
theorem claim_C5_counterexample :
    overrideStep sampleChecks mapWithUnknownField sampleEntry =
        .error "unknown field(s): zzz" ∧
      (overrideStepSpec sampleChecks mapWithUnknownField sampleEntry).isOk = true :=
  ⟨rfl, rfl⟩

/-- Claim C5 as amended: every merged or new override entry is
re-defaulted and then re-validated in the source's default strict mode;
whenever the merged entry carries only known field names — always the
case for entries the pipeline itself produces, since overrides are
strictly validated at load and seeds use known fields — the step
coincides with the spec's lenient re-validation. -/
theorem claim_C5_amended (ck : StrKeyChecks) (m : KeyedMap) (ov : Entry)
    (h : ∀ f ∈ fieldNames (mergedEntryOf m ov), f ∈ _KNOWN_CURRENCY_FIELDS) :
    overrideStep ck m ov = overrideStepSpec ck m ov := by
  unfold overrideStep overrideStepSpec
  dsimp only
  cases hd : _apply_required_field_defaults (mergedEntryOf m ov) with
  | error msg => rfl
  | ok merged =>
    dsimp only
    have hm : merged = defaultsChain (mergedEntryOf m ov) := apply_defaults_ok_inv hd
    have hknown : ∀ f ∈ fieldNames merged, f ∈ _KNOWN_CURRENCY_FIELDS := by
      intro f hf
      rw [hm] at hf
      rcases mem_fieldNames_defaultsChain hf with hf | hf
      · exact h f hf
      · simp only [List.mem_cons, List.not_mem_nil, or_false] at hf
        rcases hf with rfl | rfl | rfl | rfl | rfl <;> decide
    rw [validate_obj_eq ck merged true, validate_obj_eq ck merged false,
      validate_strict_eq_lenient (unknownFields_nil_of_known hknown)]

/-- Witness for the amended C5 at a concrete override on an empty map. -/
theorem claim_C5_witness :
    overrideStep sampleChecks [] sampleEntry = overrideStepSpec sampleChecks [] sampleEntry :=
  claim_C5_amended sampleChecks [] sampleEntry (by decide)

theorem loadEntriesFrom_error_at (ck : StrKeyChecks) :
    ∀ (items : List JValue) (idx N : Nat) (hN : N < items.length) (msg : String),
      validate_currency_entry ck (items.get ⟨N, hN⟩) true = .error msg →
      (∀ (j : Nat) (hj : j < N),
        (validate_currency_entry ck (items.get ⟨j, lt_trans hj hN⟩) true).isOk = true) →
      loadEntriesFrom ck idx items =
        .error ("Invalid currency entry at " ++ envVarName ++ "[" ++ toString (idx + N) ++
          "]: " ++ msg)
  | [], _, N, hN, _ => by intro _ _; exact absurd hN (Nat.not_lt_zero N)
  | item :: rest, idx, 0, hN, msg => by
    intro hfail _
    unfold loadEntriesFrom
    rw [show (item :: rest).get ⟨0, hN⟩ = item from rfl] at hfail
    rw [hfail]
    simp
  | item :: rest, idx, N2 + 1, hN, msg => by
    intro hfail hok
    have h0 : (validate_currency_entry ck item true).isOk = true :=
      hok 0 (Nat.succ_pos N2)
    cases hv : validate_currency_entry ck item true with
    | error m => rw [hv] at h0; exact absurd h0 (by simp [Except.isOk, Except.toBool])
    | ok e =>
      unfold loadEntriesFrom
      rw [hv]
      have ih := loadEntriesFrom_error_at ck rest (idx + 1) N2
        (Nat.lt_of_succ_lt_succ hN) msg hfail
        (fun j hj => hok (j + 1) (Nat.succ_lt_succ hj))
      rw [show idx + 1 + N2 = idx + (N2 + 1) from by omega] at ih
      rw [ih]

theorem loadEntriesFrom_not_ok (ck : StrKeyChecks) :
    ∀ (items : List JValue) (idx N : Nat) (hN : N < items.length),
      (validate_currency_entry ck (items.get ⟨N, hN⟩) true).isOk = false →
      (loadEntriesFrom ck idx items).isOk = false
  | [], _, N, hN => by intro _; exact absurd hN (Nat.not_lt_zero N)
  | item :: rest, idx, 0, hN => by
    intro hfail
    rw [show (item :: rest).get ⟨0, hN⟩ = item from rfl] at hfail
    cases hv : validate_currency_entry ck item true with
    | ok e => rw [hv] at hfail; exact absurd hfail (by simp [Except.isOk, Except.toBool])
    | error m =>
      unfold loadEntriesFrom
      rw [hv]
      rfl
  | item :: rest, idx, N2 + 1, hN => by
    intro hfail
    cases hv : validate_currency_entry ck item true with
    | error m =>
      unfold loadEntriesFrom
      rw [hv]
      rfl
    | ok e =>
      unfold loadEntriesFrom
      rw [hv]
      have ih := loadEntriesFrom_not_ok ck rest (idx + 1) N2
        (Nat.lt_of_succ_lt_succ hN) hfail
      cases hl : loadEntriesFrom ck (idx + 1) rest with
      | error m => rfl
      | ok es => rw [hl] at ih; exact absurd ih (by simp [Except.isOk, Except.toBool])

/-- Claim C6: when an override array element at index `N` fails strict
validation (all earlier elements passing), the loader fails with an
error naming index `N` and the violated rule; and whenever any element
fails, the loader returns no entries at all. -/
theorem claim_C6 (ck : StrKeyChecks) (items : List JValue) :
    (∀ (N : Nat) (hN : N < items.length) (msg : String),
      validate_currency_entry ck (items.get ⟨N, hN⟩) true = .error msg →
      (∀ (j : Nat) (hj : j < N),
        (validate_currency_entry ck (items.get ⟨j, lt_trans hj hN⟩) true).isOk = true) →
      load_additional_currencies_from_env ck (.parsed (.arr items)) =
        .error ("Invalid currency entry at " ++ envVarName ++ "[" ++ toString N ++
          "]: " ++ msg)) ∧
    (∀ (N : Nat) (hN : N < items.length),
      (validate_currency_entry ck (items.get ⟨N, hN⟩) true).isOk = false →
      (load_additional_currencies_from_env ck (.parsed (.arr items))).isOk = false) := by
  constructor
  · intro N hN msg hfail hok
    have h := loadEntriesFrom_error_at ck items 0 N hN msg hfail hok
    rw [Nat.zero_add] at h
    exact h
  · intro N hN hfail
    exact loadEntriesFrom_not_ok ck items 0 N hN hfail

/-- Witness for C6: a one-element array whose entry has a non-string
`code` fails with the index-0-qualified message. -/
theorem claim_C6_witness :
    load_additional_currencies_from_env sampleChecks
        (.parsed (.arr [.obj [("code", .i 5)]])) =
      .error ("Invalid currency entry at " ++ envVarName ++ "[" ++ toString 0 ++ "]: " ++
        "'code' must be a non-empty string") :=
  (claim_C6 sampleChecks [.obj [("code", .i 5)]]).1 0 (by decide)
    "'code' must be a non-empty string" rfl
    (fun j hj => absurd hj (Nat.not_lt_zero j))

/-- Counterexample for C7: an array whose second element is not an
object fails only after the first element has gone through per-field
validation, and with an index-qualified per-entry message rather than
one of the loader's structural errors. -/
theorem claim_C7_counterexample :
    load_additional_currencies_from_env sampleChecks
        (.parsed (.arr [.obj [("code", .i 5)], .i 42])) =
      .error "Invalid currency entry at SEP1_CURRENCIES[0]: 'code' must be a non-empty string" ∧
    "Invalid currency entry at SEP1_CURRENCIES[0]: 'code' must be a non-empty string" ∉
      structuralErrorMessages :=
  ⟨rfl, by decide⟩

/-- Claim C7 as amended: an absent or empty payload yields `[]`; a
payload that is not valid JSON, or valid JSON that is not an array,
fails with one of the two structural errors; an array element that is
not an object fails inside the per-entry loop — after every earlier
element has been validated — with an index-qualified object-shape
message, not a structural error. -/
theorem claim_C7_amended (ck : StrKeyChecks) :
    load_additional_currencies_from_env ck .absent = .ok [] ∧
    load_additional_currencies_from_env ck .invalidJson =
      .error (envVarName ++ " must be valid JSON") ∧
    (∀ v : JValue, v.isArr = false →
      load_additional_currencies_from_env ck (.parsed v) =
        .error (envVarName ++ " must be a JSON list of objects")) ∧
    ((envVarName ++ " must be valid JSON") ∈ structuralErrorMessages ∧
      (envVarName ++ " must be a JSON list of objects") ∈ structuralErrorMessages) ∧
    (∀ (items : List JValue) (N : Nat) (hN : N < items.length),
      (items.get ⟨N, hN⟩).isObj = false →
      (∀ (j : Nat) (hj : j < N),
        (validate_currency_entry ck (items.get ⟨j, lt_trans hj hN⟩) true).isOk = true) →
      load_additional_currencies_from_env ck (.parsed (.arr items)) =
        .error ("Invalid currency entry at " ++ envVarName ++ "[" ++ toString N ++ "]: " ++
          "currency entry must be an object")) := by
  refine ⟨rfl, rfl, ?_, ⟨by simp [structuralErrorMessages], by simp [structuralErrorMessages]⟩, ?_⟩
  · intro v hv
    cases v with
    | arr elems => simp [JValue.isArr] at hv
    | null => rfl
    | s _ => rfl
    | b _ => rfl
    | i _ => rfl
    | obj _ => rfl
  · intro items N hN hobj hok
    have hfail : validate_currency_entry ck (items.get ⟨N, hN⟩) true =
        .error "currency entry must be an object" := by
      cases hv : items.get ⟨N, hN⟩ with
      | obj l => rw [hv] at hobj; simp [JValue.isObj] at hobj
      | null => rfl
      | s _ => rfl
      | b _ => rfl
      | i _ => rfl
      | arr _ => rfl
    have h := loadEntriesFrom_error_at ck items 0 N hN _ hfail hok
    rw [Nat.zero_add] at h
    exact h

/-- Witness for the amended C7: a non-array payload and an array with a
non-object element, both concrete. -/
theorem claim_C7_witness :
    load_additional_currencies_from_env sampleChecks (.parsed (.i 3)) =
      .error (envVarName ++ " must be a JSON list of objects") ∧
    load_additional_currencies_from_env sampleChecks (.parsed (.arr [.i 42])) =
      .error ("Invalid currency entry at " ++ envVarName ++ "[" ++ toString 0 ++ "]: " ++
        "currency entry must be an object") :=
  ⟨(claim_C7_amended sampleChecks).2.2.1 (.i 3) rfl,
   (claim_C7_amended sampleChecks).2.2.2.2 [.i 42] 0 (by decide) rfl
     (fun j hj => absurd hj (Nat.not_lt_zero j))⟩

end AbroadSep1
